import Mathlib

/-
  Verification of the garage service-record server (src/server.ts).

  The server is shallowly embedded: the SQLite tables become Lean lists held
  in a `DB` structure, the bcrypt hasher becomes a salted pairing with a
  matching compare, the JWT codec becomes a payload/secret pair whose verify
  checks the secret, and each Express route handler becomes a pure function
  from the request pieces and the current `DB` to a response together with
  the next `DB`.
-/

/-- A bcrypt digest: `bcrypt.hash(plaintext, 10)` is modelled as the pair of
the plaintext it was derived from and the salt drawn for this call, so two
hashes of the same plaintext with different salts are distinct digests. -/
structure Digest where
  ofPlaintext : String
  salt : Nat
deriving DecidableEq, Repr

/-- `bcrypt.hash(plaintext, 10)` with the salt the hasher drew internally. -/
def bcryptHash (plaintext : String) (salt : Nat) : Digest :=
  ⟨plaintext, salt⟩

/-- `bcrypt.compare(plaintext, digest)`: true iff the digest was produced
from this plaintext, whatever the salt. -/
def bcryptCompare (plaintext : String) (d : Digest) : Bool :=
  plaintext == d.ofPlaintext

/-- A `users` table row: id, email, password (bcrypt digest), garage_name. -/
structure User where
  id : Nat
  email : String
  password : Digest
  garage_name : String
deriving DecidableEq, Repr

/-- A `vehicles` table row, exactly the columns of the CREATE TABLE. -/
structure Vehicle where
  id : Nat
  user_id : Nat
  owner_name : String
  phone : String
  vehicle_number : String
  make : String
  model : String
  last_service_date : String
  next_service_date : String
  notes : String
deriving DecidableEq, Repr

/-- The SQLite database: both tables in insertion order, plus the next
AUTOINCREMENT id for each. -/
structure DB where
  users : List User
  vehicles : List Vehicle
  nextUserId : Nat
  nextVehicleId : Nat
deriving DecidableEq, Repr

/-- The JWT payload signed at signup/login:
`{ userId, email, garageName }`. -/
structure Claim where
  userId : Nat
  email : String
  garageName : String
deriving DecidableEq, Repr

/-- A signed token: `jwt.sign(payload, secret)` packages the payload with
the signing secret; only the matching secret verifies it. -/
structure Token where
  payload : Claim
  secret : String
deriving DecidableEq, Repr

/-- `jwt.sign(claim, secret)`. -/
def jwtSign (c : Claim) (s : String) : Token :=
  ⟨c, s⟩

/-- `jwt.verify(token, secret)`: the payload when the signature checks out
against `secret`, failure otherwise. -/
def jwtVerify (t : Token) (s : String) : Option Claim :=
  if t.secret == s then some t.payload else none

/-- An `Authorization` header value, after `split(" ")`: the scheme word and,
when a second word is present, the token it carries. -/
structure AuthValue where
  scheme : String
  token : Option Token
deriving DecidableEq, Repr

/-- `req.headers.authorization?.split(" ")[1]`: absent header or absent
second word both yield no token. -/
def extractToken (hdr : Option AuthValue) : Option Token :=
  hdr.bind (fun a => a.token)

/-- The two 401 responses of the `authenticate` middleware:
`{error: "Unauthorized"}` when no token, `{error: "Invalid token"}` when
`jwt.verify` throws. -/
inductive AuthError where
  | unauthorized
  | invalidToken
deriving DecidableEq, Repr

/-- The `authenticate` middleware: extract the bearer token; 401 when absent;
verify it; 401 when verification fails; otherwise pass the decoded claim on. -/
def authenticate (secret : String) (hdr : Option AuthValue) : Except AuthError Claim :=
  match extractToken hdr with
  | none => .error .unauthorized
  | some t =>
    match jwtVerify t secret with
    | none => .error .invalidToken
    | some c => .ok c

/-- The `user` object returned by the auth endpoints. -/
structure UserView where
  email : String
  garageName : String
deriving DecidableEq, Repr

/-- Response of POST /api/auth/signup: 200 with token and user, or the 400
`Email already exists` raised by the UNIQUE constraint on `users.email`. -/
inductive SignupResult where
  | ok (token : Token) (user : UserView)
  | emailExists
deriving DecidableEq, Repr

/-- POST /api/auth/signup: hash the password, INSERT the row (the UNIQUE
constraint on email — case-sensitive, SQLite BINARY collation — rejects a
duplicate and the handler maps that to the 400), sign a token for the fresh
row id. `salt` is the salt bcrypt draws for this call. -/
def signup (secret : String) (db : DB) (email password garageName : String)
    (salt : Nat) : SignupResult × DB :=
  if db.users.any (fun u => u.email == email) then
    (.emailExists, db)
  else
    let hashed := bcryptHash password salt
    let u : User := ⟨db.nextUserId, email, hashed, garageName⟩
    (.ok (jwtSign ⟨db.nextUserId, email, garageName⟩ secret) ⟨email, garageName⟩,
      { db with users := db.users ++ [u], nextUserId := db.nextUserId + 1 })

/-- Response of POST /api/auth/login: 200 with token and user, or the single
401 `Invalid credentials` used for both unknown email and wrong password. -/
inductive LoginResult where
  | ok (token : Token) (user : UserView)
  | invalidCredentials
deriving DecidableEq, Repr

/-- `SELECT * FROM users WHERE email = ?` (first matching row). -/
def findByEmail (db : DB) (email : String) : Option User :=
  db.users.find? (fun u => u.email == email)

/-- POST /api/auth/login: look the email up; if no row, or the bcrypt compare
fails, answer 401 `Invalid credentials`; otherwise sign a token from the row. -/
def login (secret : String) (db : DB) (email password : String) : LoginResult × DB :=
  match findByEmail db email with
  | none => (.invalidCredentials, db)
  | some u =>
    if bcryptCompare password u.password then
      (.ok (jwtSign ⟨u.id, u.email, u.garage_name⟩ secret) ⟨u.email, u.garage_name⟩, db)
    else
      (.invalidCredentials, db)

/-- The JSON body of a vehicle create/update request. The handlers
destructure the eight named fields; `idField` records whether the raw body
carried its own `id` key, which the named destructuring ignores but the
response spread `{...req.body}` does not. -/
structure VehicleBody where
  owner_name : String
  phone : String
  vehicle_number : String
  make : String
  model : String
  last_service_date : String
  next_service_date : String
  notes : String
  idField : Option Nat
deriving DecidableEq, Repr

/-- The row INSERTed by POST /api/vehicles: generated id, the caller's
`user_id` from the verified claim, and the eight destructured body fields. -/
def mkVehicle (vid uid : Nat) (b : VehicleBody) : Vehicle :=
  ⟨vid, uid, b.owner_name, b.phone, b.vehicle_number, b.make, b.model,
    b.last_service_date, b.next_service_date, b.notes⟩

/-- The JSON object answered by POST /api/vehicles. -/
structure CreateResponse where
  id : Nat
  owner_name : String
  phone : String
  vehicle_number : String
  make : String
  model : String
  last_service_date : String
  next_service_date : String
  notes : String
deriving DecidableEq, Repr

/-- `{ id: result.lastInsertRowid, ...req.body }`: the spread comes second,
so an `id` key present in the body overwrites the generated one. -/
def spreadBodyOverId (generatedId : Nat) (b : VehicleBody) : CreateResponse :=
  ⟨b.idField.getD generatedId, b.owner_name, b.phone, b.vehicle_number,
    b.make, b.model, b.last_service_date, b.next_service_date, b.notes⟩

/-- Insert a vehicle into a list kept in descending id order. -/
def vehicleInsertDesc (v : Vehicle) : List Vehicle → List Vehicle
  | [] => [v]
  | w :: ws => if w.id ≤ v.id then v :: w :: ws else w :: vehicleInsertDesc v ws

/-- `ORDER BY id DESC` (insertion sort on the id column, descending). -/
def orderByIdDesc : List Vehicle → List Vehicle
  | [] => []
  | v :: vs => vehicleInsertDesc v (orderByIdDesc vs)

/-- `SELECT * FROM vehicles WHERE user_id = ? ORDER BY id DESC`. -/
def listVehicles (db : DB) (uid : Nat) : List Vehicle :=
  orderByIdDesc (db.vehicles.filter (fun v => v.user_id == uid))

/-- GET /api/vehicles: authenticate, then list the caller's rows. -/
def getVehicles (secret : String) (db : DB) (hdr : Option AuthValue) :
    Except AuthError (List Vehicle) × DB :=
  match authenticate secret hdr with
  | .error e => (.error e, db)
  | .ok c => (.ok (listVehicles db c.userId), db)

/-- POST /api/vehicles: authenticate, INSERT a row under the caller's
`userId` with the next AUTOINCREMENT id, answer the id/body spread. -/
def postVehicles (secret : String) (db : DB) (hdr : Option AuthValue)
    (body : VehicleBody) : Except AuthError CreateResponse × DB :=
  match authenticate secret hdr with
  | .error e => (.error e, db)
  | .ok c =>
    let v := mkVehicle db.nextVehicleId c.userId body
    (.ok (spreadBodyOverId db.nextVehicleId body),
      { db with vehicles := db.vehicles ++ [v],
                nextVehicleId := db.nextVehicleId + 1 })

/-- The `{success: true}` body of PUT and DELETE. -/
structure SuccessBody where
  success : Bool
deriving DecidableEq, Repr

/-- The SET clause of the UPDATE: overwrite the eight mutable columns,
keep id and user_id. -/
def updateFields (b : VehicleBody) (v : Vehicle) : Vehicle :=
  { v with owner_name := b.owner_name, phone := b.phone,
           vehicle_number := b.vehicle_number, make := b.make, model := b.model,
           last_service_date := b.last_service_date,
           next_service_date := b.next_service_date, notes := b.notes }

/-- PUT /api/vehicles/:id: authenticate, then
`UPDATE vehicles SET ... WHERE id = ? AND user_id = ?`; the response is
`{success: true}` whether or not any row matched. -/
def putVehicle (secret : String) (db : DB) (hdr : Option AuthValue) (rid : Nat)
    (body : VehicleBody) : Except AuthError SuccessBody × DB :=
  match authenticate secret hdr with
  | .error e => (.error e, db)
  | .ok c =>
    (.ok ⟨true⟩,
      { db with vehicles := db.vehicles.map (fun v =>
          if v.id == rid && v.user_id == c.userId then updateFields body v else v) })

/-- DELETE /api/vehicles/:id: authenticate, then
`DELETE FROM vehicles WHERE id = ? AND user_id = ?`; the response is
`{success: true}` whether or not any row matched. -/
def deleteVehicle (secret : String) (db : DB) (hdr : Option AuthValue)
    (rid : Nat) : Except AuthError SuccessBody × DB :=
  match authenticate secret hdr with
  | .error e => (.error e, db)
  | .ok c =>
    (.ok ⟨true⟩,
      { db with vehicles := db.vehicles.filter (fun v =>
          !(v.id == rid && v.user_id == c.userId)) })

/-- A well-formed `Authorization: Bearer <token>` header. -/
def bearerHdr (c : Claim) (secret : String) : Option AuthValue :=
  some ⟨"Bearer", some (jwtSign c secret)⟩

/-
  Derived service status. The dashboard compares timestamps:
  `today = new Date()` and `next = parseISO(v.next_service_date)` (midnight
  of that date). Timestamps are modelled as integer milliseconds.
-/

/-- Milliseconds per day. -/
def dayMs : Int := 86400000

/-- date-fns `addDays`. -/
def addDays (t : Int) (n : Nat) : Int :=
  t + n * dayMs

/-- date-fns `isBefore`. -/
def isBefore (a b : Int) : Bool :=
  a < b

/-- date-fns `isAfter`. -/
def isAfter (a b : Int) : Bool :=
  b < a

/-- The three derived service states of the dashboard. -/
inductive ServiceStatus where
  | Overdue
  | UpcomingWithin7Days
  | Scheduled
deriving DecidableEq, Repr

/-- The overdue test used by both `stats` and the vehicle card:
`isBefore(parseISO(v.next_service_date), today)`. -/
def isOverdue (next today : Int) : Bool :=
  isBefore next today

/-- The upcoming test of `stats`:
`isAfter(next, today) && isBefore(next, addDays(today, 7))`. -/
def isUpcomingWithin7 (next today : Int) : Bool :=
  isAfter next today && isBefore next (addDays today 7)

/-- The classification the dashboard's two predicates induce on a record:
overdue wins, else upcoming, else scheduled. -/
def derivedStatus (next today : Int) : ServiceStatus :=
  if isOverdue next today then .Overdue
  else if isUpcomingWithin7 next today then .UpcomingWithin7Days
  else .Scheduled

/-- Modelled from the spec: Overdue if next < now; UpcomingWithin7Days if
now ≤ next < now+7days; else Scheduled. For comparison with
`derivedStatus`, which is from the code. -/
def specStatus (next today : Int) : ServiceStatus :=
  if next < today then .Overdue
  else if today ≤ next ∧ next < addDays today 7 then .UpcomingWithin7Days
  else .Scheduled

/-
  Ordering lemmas for the embedded ORDER BY id DESC.
-/

theorem vehicleInsertDesc_perm (v : Vehicle) (l : List Vehicle) :
    List.Perm (vehicleInsertDesc v l) (v :: l) := by
  induction l with
  | nil => simp [vehicleInsertDesc]
  | cons w ws ih =>
    simp only [vehicleInsertDesc]
    split
    · exact List.Perm.refl _
    · exact (ih.cons w).trans (List.Perm.swap v w ws)

theorem orderByIdDesc_perm (l : List Vehicle) :
    List.Perm (orderByIdDesc l) l := by
  induction l with
  | nil => simp [orderByIdDesc]
  | cons v vs ih =>
    simp only [orderByIdDesc]
    exact (vehicleInsertDesc_perm v (orderByIdDesc vs)).trans (ih.cons v)

theorem mem_orderByIdDesc {v : Vehicle} {l : List Vehicle} :
    v ∈ orderByIdDesc l ↔ v ∈ l :=
  (orderByIdDesc_perm l).mem_iff

theorem vehicleInsertDesc_pairwise (v : Vehicle) (l : List Vehicle)
    (h : l.Pairwise (fun a b => b.id ≤ a.id)) :
    (vehicleInsertDesc v l).Pairwise (fun a b => b.id ≤ a.id) := by
  induction l with
  | nil => simp [vehicleInsertDesc]
  | cons w ws ih =>
    rcases List.pairwise_cons.mp h with ⟨hw, hws⟩
    simp only [vehicleInsertDesc]
    split
    next hle =>
      refine List.pairwise_cons.mpr ⟨?_, h⟩
      intro b hb
      rcases List.mem_cons.mp hb with hbv | hb2
      · rw [hbv]; exact hle
      · exact le_trans (hw b hb2) hle
    next hle =>
      refine List.pairwise_cons.mpr ⟨?_, ih hws⟩
      intro b hb
      rcases List.mem_cons.mp ((vehicleInsertDesc_perm v ws).mem_iff.mp hb) with hbv | hb2
      · rw [hbv]; exact (Nat.not_le.mp hle).le
      · exact hw b hb2

theorem orderByIdDesc_pairwise (l : List Vehicle) :
    (orderByIdDesc l).Pairwise (fun a b => b.id ≤ a.id) := by
  induction l with
  | nil => simp [orderByIdDesc]
  | cons v vs ih => exact vehicleInsertDesc_pairwise v _ ih

theorem vehicleInsertDesc_min (v : Vehicle) (l : List Vehicle)
    (h : ∀ w ∈ l, v.id < w.id) : vehicleInsertDesc v l = l ++ [v] := by
  induction l with
  | nil => rfl
  | cons w ws ih =>
    have hw := h w (List.mem_cons_self w ws)
    have ih2 := ih (fun x hx => h x (List.mem_cons_of_mem w hx))
    simp only [vehicleInsertDesc, if_neg (Nat.not_le.mpr hw), ih2, List.cons_append]

theorem orderByIdDesc_append_max (l : List Vehicle) (x : Vehicle)
    (h : ∀ a ∈ l, a.id < x.id) :
    orderByIdDesc (l ++ [x]) = x :: orderByIdDesc l := by
  induction l with
  | nil => rfl
  | cons a l ih =>
    have ha := h a (List.mem_cons_self a l)
    have ih2 := ih (fun b hb => h b (List.mem_cons_of_mem a hb))
    show vehicleInsertDesc a (orderByIdDesc (l ++ [x])) =
      x :: vehicleInsertDesc a (orderByIdDesc l)
    rw [ih2]
    simp only [vehicleInsertDesc, if_neg (Nat.not_le.mpr ha)]

theorem orderByIdDesc_of_increasing (l : List Vehicle)
    (h : l.Pairwise (fun a b => a.id < b.id)) : orderByIdDesc l = l.reverse := by
  induction l with
  | nil => rfl
  | cons a l ih =>
    rcases List.pairwise_cons.mp h with ⟨ha, hl⟩
    simp only [orderByIdDesc, ih hl,
      vehicleInsertDesc_min a l.reverse (fun w hw => ha w (List.mem_reverse.mp hw)),
      List.reverse_cons]

/-
  Shared concrete sample values for witnesses.
-/

/-- Sample claim for account 1. -/
def claimA : Claim := ⟨1, "a@x.com", "Bobs Garage"⟩

/-- Sample claim for a second, distinct account. -/
def claimB : Claim := ⟨2, "b@y.com", "Other Garage"⟩

/-- Sample create/update body with no `id` key of its own. -/
def sampleBody : VehicleBody :=
  ⟨"Jane", "555", "AB123", "Honda", "City", "2024-01-01", "2024-01-02", "", none⟩

/-- Sample create body that smuggles its own `id` key. -/
def sampleBodyWithId : VehicleBody :=
  ⟨"Jane", "555", "AB123", "Honda", "City", "2024-01-01", "2024-01-02", "", some 99⟩

/-- The freshly initialised database: both tables empty. -/
def emptyDB : DB := ⟨[], [], 1, 1⟩

/-- A vehicle row with id 1 owned by account 1. -/
def vehicleA1 : Vehicle :=
  ⟨1, 1, "Jane", "555", "AB123", "Honda", "City", "2024-01-01", "2024-01-02", ""⟩

/-- A database holding the one vehicle row `vehicleA1` and its owner. -/
def dbOneVehicle : DB :=
  ⟨[⟨1, "a@x.com", ⟨"pw123", 0⟩, "Bobs Garage"⟩], [vehicleA1], 2, 2⟩

/-- A header whose token was signed with a different secret. -/
def badSecretHdr : Option AuthValue :=
  some ⟨"Bearer", some (jwtSign claimA "other")⟩

/-- C2, corrected at the boundary: with nextServiceDate equal to "now" (both
explicit timestamps, here 0), the dashboard classifies the record Scheduled —
`isBefore(next, today)` and `isAfter(next, today)` are both strict — while
the claim classifies a record whose nextServiceDate equals the current date
as UpcomingWithin7Days. The two classifications disagree at this input. -/
theorem C2_status_boundary_counterexample :
    derivedStatus 0 0 = ServiceStatus.Scheduled ∧
    specStatus 0 0 = ServiceStatus.UpcomingWithin7Days ∧
    derivedStatus 0 0 ≠ specStatus 0 0 := by
  decide

/-- C2 (amended): comparing nextServiceDate against "now" (both explicit),
the derived status is Overdue iff next < now, UpcomingWithin7Days iff
now < next < now+7days (strictly after now, not on or after), and
Scheduled otherwise — i.e. exactly when next = now or next ≥ now+7days.
A record whose nextServiceDate equals "now" is Scheduled, not
UpcomingWithin7Days and not Overdue. -/
theorem C2_derivedStatus_classification (next today : Int) :
    (derivedStatus next today = ServiceStatus.Overdue ↔ next < today) ∧
    (derivedStatus next today = ServiceStatus.UpcomingWithin7Days ↔
      today < next ∧ next < addDays today 7) ∧
    (derivedStatus next today = ServiceStatus.Scheduled ↔
      next = today ∨ addDays today 7 ≤ next) := by
  unfold derivedStatus isOverdue isUpcomingWithin7 isBefore isAfter addDays dayMs
  split_ifs with ha hb
  · simp only [decide_eq_true_eq] at ha
    refine ⟨iff_of_true rfl ha, iff_of_false (by decide) (by omega),
      iff_of_false (by decide) (by omega)⟩
  · simp only [decide_eq_true_eq] at ha
    simp only [Bool.and_eq_true, decide_eq_true_eq] at hb
    refine ⟨iff_of_false (by decide) ha, iff_of_true rfl (by omega),
      iff_of_false (by decide) (by omega)⟩
  · simp only [decide_eq_true_eq] at ha
    simp only [Bool.and_eq_true, decide_eq_true_eq, not_and, not_lt] at hb
    refine ⟨iff_of_false (by decide) ha, iff_of_false (by decide) (by omega),
      iff_of_true rfl (by omega)⟩

/-- C10: the create response is `{id: generatedId, ...body}`, so a body that
itself carries an `id` key (here 99) makes the response report id 99 while
the row actually persisted gets the generated id 1: the response differs
from the persisted record. -/
theorem C10_create_response_id_overridden :
    ((postVehicles "s" emptyDB (bearerHdr claimA "s") sampleBodyWithId).1 =
      Except.ok ⟨99, "Jane", "555", "AB123", "Honda", "City",
        "2024-01-01", "2024-01-02", ""⟩) ∧
    ((postVehicles "s" emptyDB (bearerHdr claimA "s") sampleBodyWithId).2.vehicles =
      [⟨1, 1, "Jane", "555", "AB123", "Honda", "City",
        "2024-01-01", "2024-01-02", ""⟩]) ∧
    (99 : Nat) ≠ 1 := by
  refine ⟨rfl, rfl, by decide⟩

/-
  A well-formed bearer header signed with the server secret authenticates
  to its claim; the four vehicle handlers then reduce to their query.
-/

theorem authenticate_bearerHdr (c : Claim) (secret : String) :
    authenticate secret (bearerHdr c secret) = Except.ok c := by
  simp [authenticate, bearerHdr, extractToken, jwtVerify, jwtSign]

theorem getVehicles_ok (secret : String) (db : DB) (c : Claim) :
    getVehicles secret db (bearerHdr c secret) =
      (Except.ok (listVehicles db c.userId), db) := by
  unfold getVehicles
  rw [authenticate_bearerHdr]

theorem postVehicles_ok (secret : String) (db : DB) (c : Claim)
    (body : VehicleBody) :
    postVehicles secret db (bearerHdr c secret) body =
      (Except.ok (spreadBodyOverId db.nextVehicleId body),
        { db with vehicles := db.vehicles ++ [mkVehicle db.nextVehicleId c.userId body],
                  nextVehicleId := db.nextVehicleId + 1 }) := by
  unfold postVehicles
  rw [authenticate_bearerHdr]

theorem putVehicle_ok (secret : String) (db : DB) (c : Claim) (rid : Nat)
    (body : VehicleBody) :
    putVehicle secret db (bearerHdr c secret) rid body =
      (Except.ok ⟨true⟩,
        { db with vehicles := db.vehicles.map (fun v =>
            if v.id == rid && v.user_id == c.userId then updateFields body v else v) }) := by
  unfold putVehicle
  rw [authenticate_bearerHdr]

theorem deleteVehicle_ok (secret : String) (db : DB) (c : Claim) (rid : Nat) :
    deleteVehicle secret db (bearerHdr c secret) rid =
      (Except.ok ⟨true⟩,
        { db with vehicles := db.vehicles.filter (fun v =>
            !(v.id == rid && v.user_id == c.userId)) }) := by
  unfold deleteVehicle
  rw [authenticate_bearerHdr]

/-- C1: tenant isolation. Let `v` be any record owned by an account other
than the one in session claim `cB`. GET under `cB` answers exactly
`listVehicles db cB.userId`; every record that query returns is owned by
`cB.userId` (the SQL filters by the claim's account id); so `v` is never
returned. PUT of record id `rid` under `cB` keeps `v` in the store
unchanged, whatever `rid` and whatever fields; DELETE likewise does not
remove `v`. -/
theorem C1_tenant_isolation (secret : String) (db : DB) (cB : Claim)
    (rid : Nat) (body : VehicleBody) (v : Vehicle)
    (hv : v ∈ db.vehicles) (hAB : v.user_id ≠ cB.userId) :
    (getVehicles secret db (bearerHdr cB secret)).1 =
      Except.ok (listVehicles db cB.userId) ∧
    (∀ w ∈ listVehicles db cB.userId, w.user_id = cB.userId) ∧
    v ∉ listVehicles db cB.userId ∧
    v ∈ ((putVehicle secret db (bearerHdr cB secret) rid body).2).vehicles ∧
    v ∈ ((deleteVehicle secret db (bearerHdr cB secret) rid).2).vehicles := by
  have hmemall : ∀ w ∈ listVehicles db cB.userId, w.user_id = cB.userId := by
    intro w hw
    have hw2 : w ∈ db.vehicles.filter (fun x => x.user_id == cB.userId) :=
      mem_orderByIdDesc.mp hw
    simpa using (List.mem_filter.mp hw2).2
  refine ⟨by rw [getVehicles_ok], hmemall, ?_, ?_, ?_⟩
  · intro hmem
    exact hAB (hmemall v hmem)
  · rw [putVehicle_ok]
    refine List.mem_map.mpr ⟨v, hv, ?_⟩
    have hc : (v.id == rid && v.user_id == cB.userId) = false := by
      simp [hAB]
    simp [hc]
  · rw [deleteVehicle_ok]
    refine List.mem_filter.mpr ⟨hv, ?_⟩
    simp [hAB]

/-- Witness for C1 at concrete input: account 2's session neither sees nor
disturbs account 1's record. -/
theorem C1_tenant_isolation_witness :
    vehicleA1 ∉ listVehicles dbOneVehicle claimB.userId ∧
    vehicleA1 ∈ ((putVehicle "s" dbOneVehicle (bearerHdr claimB "s") 1 sampleBody).2).vehicles ∧
    vehicleA1 ∈ ((deleteVehicle "s" dbOneVehicle (bearerHdr claimB "s") 1).2).vehicles := by
  have h := C1_tenant_isolation "s" dbOneVehicle claimB 1 sampleBody vehicleA1
    (by decide) (by decide)
  exact ⟨h.2.2.1, h.2.2.2.1, h.2.2.2.2⟩

/-- C3: silent no-op. If no stored record has both the requested id and the
caller's account id — the id does not exist at all, or the row belongs to a
different account — then PUT and DELETE leave the store exactly as it was
and still answer `{success: true}`. -/
theorem C3_silent_noop (secret : String) (db : DB) (c : Claim) (rid : Nat)
    (body : VehicleBody)
    (h : ∀ v ∈ db.vehicles, ¬(v.id = rid ∧ v.user_id = c.userId)) :
    putVehicle secret db (bearerHdr c secret) rid body = (Except.ok ⟨true⟩, db) ∧
    deleteVehicle secret db (bearerHdr c secret) rid = (Except.ok ⟨true⟩, db) := by
  have hcond : ∀ v ∈ db.vehicles, (v.id == rid && v.user_id == c.userId) = false := by
    intro v hv
    have hne := h v hv
    by_cases h1 : v.id = rid
    · have h2 : v.user_id ≠ c.userId := fun h2 => hne ⟨h1, h2⟩
      simp [h2]
    · simp [h1]
  constructor
  · rw [putVehicle_ok]
    have hmap : db.vehicles.map (fun v =>
        if v.id == rid && v.user_id == c.userId then updateFields body v else v) =
        db.vehicles.map id := by
      apply List.map_congr_left
      intro a ha
      rw [hcond a ha]
      rfl
    rw [hmap, List.map_id]
  · rw [deleteVehicle_ok]
    have hfil : db.vehicles.filter (fun v =>
        !(v.id == rid && v.user_id == c.userId)) = db.vehicles := by
      apply List.filter_eq_self.mpr
      intro a ha
      rw [hcond a ha]
      rfl
    rw [hfil]

/-- Witness for C3 at concrete input: account 2 updating/deleting account 1's
record id 1 changes nothing and still reports success. -/
theorem C3_silent_noop_witness :
    putVehicle "s" dbOneVehicle (bearerHdr claimB "s") 1 sampleBody =
      (Except.ok ⟨true⟩, dbOneVehicle) ∧
    deleteVehicle "s" dbOneVehicle (bearerHdr claimB "s") 1 =
      (Except.ok ⟨true⟩, dbOneVehicle) :=
  C3_silent_noop "s" dbOneVehicle claimB 1 sampleBody (by decide)

/-- C4: a record request whose header carries no token, or a token whose
signature does not verify against the server secret (e.g. signed with a
different secret), makes `authenticate` fail; every record endpoint then
answers a 401 error and returns the store untouched — the handler body is
never reached. -/
theorem C4_unauthenticated_rejected (secret : String) (db : DB)
    (hdr : Option AuthValue) (rid : Nat) (body : VehicleBody)
    (h : ∀ t, extractToken hdr = some t → t.secret ≠ secret) :
    (∃ e, authenticate secret hdr = Except.error e) ∧
    (∃ e, (getVehicles secret db hdr).1 = Except.error e) ∧
    (getVehicles secret db hdr).2 = db ∧
    (∃ e, (postVehicles secret db hdr body).1 = Except.error e) ∧
    (postVehicles secret db hdr body).2 = db ∧
    (∃ e, (putVehicle secret db hdr rid body).1 = Except.error e) ∧
    (putVehicle secret db hdr rid body).2 = db ∧
    (∃ e, (deleteVehicle secret db hdr rid).1 = Except.error e) ∧
    (deleteVehicle secret db hdr rid).2 = db := by
  have hauth : ∃ e, authenticate secret hdr = Except.error e := by
    unfold authenticate
    cases hx : extractToken hdr with
    | none => exact ⟨.unauthorized, rfl⟩
    | some t =>
      have hv : jwtVerify t secret = none := by
        unfold jwtVerify
        rw [if_neg (by simpa using h t hx)]
      exact ⟨.invalidToken, by simp [hv]⟩
  obtain ⟨e, he⟩ := hauth
  refine ⟨⟨e, he⟩, ⟨e, ?_⟩, ?_, ⟨e, ?_⟩, ?_, ⟨e, ?_⟩, ?_, ⟨e, ?_⟩, ?_⟩ <;>
    simp [getVehicles, postVehicles, putVehicle, deleteVehicle, he]

/-- Witness for C4 at concrete inputs: a request with no Authorization header
and a request bearing a token signed with secret `other` against server
secret `s` both leave the store untouched and fail. -/
theorem C4_unauthenticated_rejected_witness :
    (∃ e, (getVehicles "s" dbOneVehicle none).1 = Except.error e) ∧
    (getVehicles "s" dbOneVehicle none).2 = dbOneVehicle ∧
    (∃ e, (putVehicle "s" dbOneVehicle badSecretHdr 1 sampleBody).1 = Except.error e) ∧
    (putVehicle "s" dbOneVehicle badSecretHdr 1 sampleBody).2 = dbOneVehicle := by
  have h1 := C4_unauthenticated_rejected "s" dbOneVehicle none 1 sampleBody
    (fun t ht => by simp [extractToken] at ht)
  have h2 := C4_unauthenticated_rejected "s" dbOneVehicle badSecretHdr 1 sampleBody
    (fun t ht => by
      have hteq : t = jwtSign claimA "other" := by
        simpa [badSecretHdr, extractToken] using ht.symm
      rw [hteq]
      decide)
  exact ⟨h1.2.1, h1.2.2.1, h2.2.2.2.2.2.1, h2.2.2.2.2.2.2.1⟩

/-
  Signup lemmas: after any signup for an email, a row with that email is
  present; signup against a store already holding the email is refused.
-/

theorem signup_mem_email (secret : String) (db : DB) (email p g : String)
    (s : Nat) :
    ∃ u ∈ ((signup secret db email p g s).2).users, u.email = email := by
  unfold signup
  split
  next hcond =>
    rcases List.any_eq_true.mp hcond with ⟨u, hu, hp⟩
    exact ⟨u, hu, by simpa using hp⟩
  next =>
    refine ⟨⟨db.nextUserId, email, bcryptHash p s, g⟩, ?_, rfl⟩
    simp

theorem signup_duplicate (secret : String) (db : DB) (email p g : String)
    (s : Nat) (h : ∃ u ∈ db.users, u.email = email) :
    signup secret db email p g s = (SignupResult.emailExists, db) := by
  rcases h with ⟨u, hu, he⟩
  unfold signup
  rw [if_pos (List.any_eq_true.mpr ⟨u, hu, by simpa using he⟩)]

/-- C5: duplicate-email signup. Whatever the first signup for an email did
to the store, a second signup with the exact same email (compared
case-sensitively, as stored) fails with the duplicate-email error and
leaves the account store exactly as it was after the first call: no second
Account row is created. -/
theorem C5_duplicate_email_signup (secret1 secret2 : String) (db : DB)
    (email p1 p2 g1 g2 : String) (s1 s2 : Nat) :
    signup secret2 ((signup secret1 db email p1 g1 s1).2) email p2 g2 s2 =
      (SignupResult.emailExists, (signup secret1 db email p1 g1 s1).2) :=
  signup_duplicate secret2 _ email p2 g2 s2 (signup_mem_email secret1 db email p1 g1 s1)

/-- C6: credential-failure indistinguishability. For any store: logging in
with an email whose stored digest does not match the given password, and
logging in with an email no account has, both produce the identical
observable outcome — the same `Invalid credentials` failure with the store
untouched — so the two cases cannot be told apart. -/
theorem C6_login_indistinguishable (secret : String) (db : DB)
    (e1 p1 e2 p2 : String)
    (h1 : ∀ u ∈ db.users, u.email = e1 → bcryptCompare p1 u.password = false)
    (h2 : ∀ u ∈ db.users, u.email ≠ e2) :
    login secret db e1 p1 = (LoginResult.invalidCredentials, db) ∧
    login secret db e2 p2 = (LoginResult.invalidCredentials, db) ∧
    login secret db e1 p1 = login secret db e2 p2 := by
  have hf2 : findByEmail db e2 = none := by
    unfold findByEmail
    apply List.find?_eq_none.mpr
    intro u hu
    simpa using h2 u hu
  have hl2 : login secret db e2 p2 = (LoginResult.invalidCredentials, db) := by
    unfold login
    rw [hf2]
  have hl1 : login secret db e1 p1 = (LoginResult.invalidCredentials, db) := by
    unfold login
    cases hf : findByEmail db e1 with
    | none => rfl
    | some u =>
      have hmem : u ∈ db.users := by
        unfold findByEmail at hf
        exact List.mem_of_find?_eq_some hf
      have hemail : u.email = e1 := by
        unfold findByEmail at hf
        simpa using List.find?_some hf
      simp [h1 u hmem hemail]
  exact ⟨hl1, hl2, hl1.trans hl2.symm⟩

/-- Witness for C6 at concrete input: wrong password for the stored account
and an unknown email give the very same failure. -/
theorem C6_login_indistinguishable_witness :
    login "s" dbOneVehicle "a@x.com" "wrong" = (LoginResult.invalidCredentials, dbOneVehicle) ∧
    login "s" dbOneVehicle "b@y.com" "pw123" = (LoginResult.invalidCredentials, dbOneVehicle) ∧
    login "s" dbOneVehicle "a@x.com" "wrong" = login "s" dbOneVehicle "b@y.com" "pw123" :=
  C6_login_indistinguishable "s" dbOneVehicle "a@x.com" "wrong" "b@y.com" "pw123"
    (by decide) (by decide)

/-- C7: create/list round-trip. Under the AUTOINCREMENT invariant (every
stored id is below the next id), a create immediately followed by a list
for the same account returns, at the head, the record just persisted: its
eight fields equal exactly what was submitted, it belongs to the caller, and
its id is newly assigned (no pre-existing record had it). -/
theorem C7_create_list_roundtrip (secret : String) (db : DB) (c : Claim)
    (body : VehicleBody)
    (hfresh : ∀ v ∈ db.vehicles, v.id < db.nextVehicleId) :
    (listVehicles ((postVehicles secret db (bearerHdr c secret) body).2) c.userId).head? =
      some (mkVehicle db.nextVehicleId c.userId body) ∧
    (mkVehicle db.nextVehicleId c.userId body).user_id = c.userId ∧
    (mkVehicle db.nextVehicleId c.userId body).owner_name = body.owner_name ∧
    (mkVehicle db.nextVehicleId c.userId body).phone = body.phone ∧
    (mkVehicle db.nextVehicleId c.userId body).vehicle_number = body.vehicle_number ∧
    (mkVehicle db.nextVehicleId c.userId body).make = body.make ∧
    (mkVehicle db.nextVehicleId c.userId body).model = body.model ∧
    (mkVehicle db.nextVehicleId c.userId body).last_service_date = body.last_service_date ∧
    (mkVehicle db.nextVehicleId c.userId body).next_service_date = body.next_service_date ∧
    (mkVehicle db.nextVehicleId c.userId body).notes = body.notes ∧
    (∀ v ∈ db.vehicles, v.id ≠ (mkVehicle db.nextVehicleId c.userId body).id) := by
  refine ⟨?_, rfl, rfl, rfl, rfl, rfl, rfl, rfl, rfl, rfl, ?_⟩
  · rw [postVehicles_ok]
    show (orderByIdDesc ((db.vehicles ++ [mkVehicle db.nextVehicleId c.userId body]).filter
      (fun v => v.user_id == c.userId))).head? = _
    rw [List.filter_append]
    have hpnew : List.filter (fun v => v.user_id == c.userId)
        [mkVehicle db.nextVehicleId c.userId body] =
        [mkVehicle db.nextVehicleId c.userId body] := by
      simp [mkVehicle]
    rw [hpnew,
      orderByIdDesc_append_max _ _ (fun a ha => hfresh a (List.mem_of_mem_filter ha))]
    rfl
  · intro v hv
    exact Nat.ne_of_lt (hfresh v hv)

/-- Witness for C7 at concrete input: create into the fresh store and list. -/
theorem C7_create_list_roundtrip_witness :
    (listVehicles ((postVehicles "s" emptyDB (bearerHdr claimA "s") sampleBody).2) claimA.userId).head? =
      some (mkVehicle emptyDB.nextVehicleId claimA.userId sampleBody) ∧
    (mkVehicle emptyDB.nextVehicleId claimA.userId sampleBody).user_id = claimA.userId := by
  have h := C7_create_list_roundtrip "s" emptyDB claimA sampleBody (by decide)
  exact ⟨h.1, h.2.1⟩

/-- C8: list result. Under the AUTOINCREMENT invariant that stored rows have
strictly increasing ids in insertion (creation) order, `ORDER BY id DESC`
makes the listing exactly the reverse of the caller's rows in creation
order — the record created last comes first; membership is precisely
ownership by the queried account, and the ids are descending. The listing
is a pure function of the current store (recomputed per call, no cache). -/
theorem C8_list_ordering (db : DB) (uid : Nat)
    (hord : db.vehicles.Pairwise (fun a b => a.id < b.id)) :
    listVehicles db uid = (db.vehicles.filter (fun v => v.user_id == uid)).reverse ∧
    (∀ v, v ∈ listVehicles db uid ↔ v ∈ db.vehicles ∧ v.user_id = uid) ∧
    (listVehicles db uid).Pairwise (fun a b => b.id ≤ a.id) := by
  refine ⟨orderByIdDesc_of_increasing _ (hord.filter _), ?_, orderByIdDesc_pairwise _⟩
  intro v
  constructor
  · intro hv
    have hm := List.mem_filter.mp (mem_orderByIdDesc.mp hv)
    exact ⟨hm.1, by simpa using hm.2⟩
  · intro hv
    exact mem_orderByIdDesc.mpr (List.mem_filter.mpr ⟨hv.1, by simpa using hv.2⟩)

/-- Witness for C8 at concrete input. -/
theorem C8_list_ordering_witness :
    listVehicles dbOneVehicle 1 =
      (dbOneVehicle.vehicles.filter (fun v => v.user_id == 1)).reverse ∧
    (listVehicles dbOneVehicle 1).Pairwise (fun a b => b.id ≤ a.id) := by
  have h := C8_list_ordering dbOneVehicle 1 (by decide)
  exact ⟨h.1, h.2.2⟩

/-- C9: account immutability. Login and the four record endpoints leave the
`users` table exactly as it was (no email, password hash or garage name of
any account changes, and no account disappears); signup only ever appends to
it, so existing rows are never modified or deleted by any exposed
operation. -/
theorem C9_account_immutability (secret : String) (db : DB)
    (hdr : Option AuthValue) (email password : String) (rid : Nat)
    (body : VehicleBody) (e p g : String) (salt : Nat) :
    (login secret db email password).2.users = db.users ∧
    (getVehicles secret db hdr).2.users = db.users ∧
    (postVehicles secret db hdr body).2.users = db.users ∧
    (putVehicle secret db hdr rid body).2.users = db.users ∧
    (deleteVehicle secret db hdr rid).2.users = db.users ∧
    (∃ tail, (signup secret db e p g salt).2.users = db.users ++ tail) := by
  refine ⟨?_, ?_, ?_, ?_, ?_, ?_⟩
  · unfold login
    split
    · rfl
    · split <;> rfl
  · unfold getVehicles
    split <;> rfl
  · unfold postVehicles
    split <;> rfl
  · unfold putVehicle
    split <;> rfl
  · unfold deleteVehicle
    split <;> rfl
  · unfold signup
    split
    · exact ⟨[], by simp⟩
    · exact ⟨[⟨db.nextUserId, e, bcryptHash p salt, g⟩], rfl⟩
